/-
Verification of the yft-micro-engine risk engine core.

The Rust sources are shallowly embedded in Lean 4. Every IEEE-754 `f64`
value of the source is modelled as a rational number (`ℚ`): the algorithms
of the engine are algebraic (additions, multiplications, divisions and
explicit decimal roundings), so the rational model mirrors the source
operation by operation while keeping the arithmetic exact. Rust `HashMap`
and `HashSet` collections are modelled as association lists and lists of
keys; iteration order of a Rust `HashMap` is unspecified, and every summed
quantity proved below is order independent, so a fixed list order is a
faithful model. Strings stay strings.
-/
import Mathlib

/-- Truncation toward zero of a rational to an integer, as performed by
`rust_decimal`'s `RoundingStrategy::ToZero` and `to_i32`. -/
def truncTowardZero (q : ℚ) : ℤ :=
  if 0 ≤ q then ⌊q⌋ else ⌈q⌉

/-- `round_dp_with_strategy(digits, RoundingStrategy::ToZero)` of the source:
truncation toward zero at `digits` decimal places. -/
def round_dp_trunc (q : ℚ) (digits : ℕ) : ℚ :=
  (truncTowardZero (q * 10 ^ digits) : ℚ) / 10 ^ digits

/-- Rust `f64::round`: rounding to the nearest integer, ties away from zero. -/
def roundHalfAway (q : ℚ) : ℤ :=
  if 0 ≤ q then ⌊q + 1 / 2⌋ else -⌊-q + 1 / 2⌋

/-- `round_float_to_digits` from `lib.rs`:
`(value * factor).round() / factor` with `factor = 10^digits`. -/
def round_float_to_digits (value : ℚ) (digits : ℕ) : ℚ :=
  (roundHalfAway (value * 10 ^ digits) : ℚ) / 10 ^ digits

/-- `MicroEngineBidask` from `bidask/dto.rs` (prices as exact rationals). -/
structure MicroEngineBidask where
  id : String
  bid : ℚ
  ask : ℚ
  base : String
  quote : String
  deriving DecidableEq, Repr

/-- `get_bid_ask_with_markup` from `bidask/dto.rs`. -/
def MicroEngineBidask.get_bid_ask_with_markup (self : MicroEngineBidask)
    (markup_bid markup_ask : ℚ) : ℚ × ℚ :=
  (self.bid + markup_bid, self.ask + markup_ask)

/-- `get_open_price` from `bidask/dto.rs`: ask for a buy, bid for a sell. -/
def MicroEngineBidask.get_open_price (self : MicroEngineBidask) (is_buy : Bool) : ℚ :=
  match is_buy with
  | true => self.ask
  | false => self.bid

/-- `get_close_price` from `bidask/dto.rs`: bid for a buy, ask for a sell. -/
def MicroEngineBidask.get_close_price (self : MicroEngineBidask) (is_buy : Bool) : ℚ :=
  match is_buy with
  | true => self.bid
  | false => self.ask

/-- `reverse` from `bidask/dto.rs`: the id gains a REVERSE- prefix, bid and
ask are swapped and inverted, base and quote are swapped. -/
def MicroEngineBidask.reverse (self : MicroEngineBidask) : MicroEngineBidask :=
  { id := "REVERSE-" ++ self.id
    bid := 1 / self.ask
    ask := 1 / self.bid
    base := self.quote
    quote := self.base }

/-- `create_blank` from `bidask/dto.rs`: the neutral identity price. -/
def MicroEngineBidask.create_blank : MicroEngineBidask :=
  { id := "", bid := 1, ask := 1, base := "", quote := "" }

/-- `TradingGroupInstrumentMarkupSettings` from `settings/mod.rs`. -/
structure TradingGroupInstrumentMarkupSettings where
  markup_bid : ℚ
  markup_ask : ℚ
  min_spread : Option ℚ
  max_spread : Option ℚ
  deriving DecidableEq, Repr

/-- `TradingGroupInstrumentSettings` from `settings/mod.rs`. -/
structure TradingGroupInstrumentSettings where
  digits : ℕ
  max_leverage : Option ℚ
  markup_settings : Option TradingGroupInstrumentMarkupSettings
  deriving DecidableEq, Repr

/-- `CollateralSettings`: referenced by `position.rs`
(`settings.collaterals.get(..).map(|c| c.digits)`) and constructed throughout
the test fixtures as `CollateralSettings { digits }`; its declaration file is
not among the sources, the shape is taken from those uses. -/
structure CollateralSettings where
  digits : ℕ
  deriving DecidableEq, Repr

/-- `MicroEngineTradingGroupSettings` from `settings/mod.rs`. The
`collaterals` map is read by `position.rs` and filled by the test fixtures
(`collaterals: HashMap<collateral, CollateralSettings>`); its field
declaration is missing from the settings source file, the shape is taken
from those uses. -/
structure MicroEngineTradingGroupSettings where
  id : String
  hedge_coef : Option ℚ
  instruments : List (String × TradingGroupInstrumentSettings)
  collaterals : List (String × CollateralSettings)

/-- `calculate_spread` from `settings/mod.rs`: `ask - bid` truncated to
`digits` decimals. -/
def calculate_spread (bid ask : ℚ) (digits : ℕ) : ℚ :=
  round_dp_trunc (ask - bid) digits

/-- `calculate_max_spread` from `settings/mod.rs`. -/
def calculate_max_spread (bid ask max_spread : ℚ) (digits : ℕ) : ℚ × ℚ :=
  let spread := calculate_spread bid ask digits
  let factor : ℚ := 10 ^ digits
  let pip : ℚ := 1 / factor
  if max_spread < spread then
    let spread_diff := round_dp_trunc (spread - max_spread) digits
    let spread_rounded := round_dp_trunc (spread_diff / 2) digits
    let is_odd : Bool := truncTowardZero (spread_diff * factor) % 2 == 0
    if is_odd then
      (bid + spread_rounded, ask - spread_rounded)
    else
      (bid + spread_rounded + pip, ask - spread_rounded)
  else
    (bid, ask)

/-- `calculate_min_spread` from `settings/mod.rs`. -/
def calculate_min_spread (bid ask min_spread : ℚ) (digits : ℕ) : ℚ × ℚ :=
  let spread := calculate_spread bid ask digits
  let factor : ℚ := 10 ^ digits
  let pip : ℚ := 1 / factor
  if spread < min_spread then
    let spread_diff := round_dp_trunc (min_spread - spread) digits
    let spread_rounded := round_dp_trunc (spread_diff / 2) digits
    let is_odd : Bool := truncTowardZero (spread_diff * factor) % 2 == 0
    if is_odd then
      (bid - spread_rounded, ask + spread_rounded)
    else
      (bid - spread_rounded - pip, ask + spread_rounded)
  else
    (bid, ask)

/-- `TradingGroupInstrumentSettings::calculate_bidask` from `settings/mod.rs`:
markup, then the max-spread clamp, then the min-spread clamp. -/
def TradingGroupInstrumentSettings.calculate_bidask
    (self : TradingGroupInstrumentSettings) (bidask : MicroEngineBidask) : ℚ × ℚ :=
  match self.markup_settings with
  | none => (bidask.bid, bidask.ask)
  | some markup_settings =>
    let p := bidask.get_bid_ask_with_markup markup_settings.markup_bid
      markup_settings.markup_ask
    let p := match markup_settings.max_spread with
      | some max_spread => calculate_max_spread p.1 p.2 max_spread self.digits
      | none => p
    let p := match markup_settings.min_spread with
      | some min_spread => calculate_min_spread p.1 p.2 min_spread self.digits
      | none => p
    p

/-- Association-list model of a Rust `HashMap` lookup. -/
def mapLookup {α : Type} (m : List (String × α)) (k : String) : Option α :=
  match m.find? (fun kv => kv.1 == k) with
  | some kv => some kv.2
  | none => none

/-- Association-list model of a Rust `HashMap` insert (upsert by key). -/
def mapInsert {α : Type} (m : List (String × α)) (k : String) (v : α) :
    List (String × α) :=
  (k, v) :: m.filter (fun kv => kv.1 != k)

/-- Model of a Rust `HashSet` insert (no duplicate keys). -/
def setInsert (s : List String) (k : String) : List String :=
  if k ∈ s then s else k :: s

/-- `MicroEngineBidAskCache` from `bidask/mod.rs`. The `cross_matrix` and
the external crate call `cross_calculations::core::get_cross_rate` are the
out-of-scope cross-rate solver; modelled from the spec contract:
`crossNoSource` is the solver invoked without source tracking and
`crossWithSource` the solver invoked with sources, which always populates
the two leg ids. -/
structure MicroEngineBidAskCache where
  prices : List (String × MicroEngineBidask)
  base_quote_index : List (String × List (String × String))
  quote_base_index : List (String × List (String × String))
  crossNoSource : String → String → Option MicroEngineBidask
  crossWithSource : String → String → Option (MicroEngineBidask × String × String)

/-- `get_by_id` from `bidask/mod.rs`. -/
def MicroEngineBidAskCache.get_by_id (self : MicroEngineBidAskCache)
    (id : String) : Option MicroEngineBidask :=
  mapLookup self.prices id

/-- `get_base_quote` from `bidask/mod.rs`. -/
def MicroEngineBidAskCache.get_base_quote (self : MicroEngineBidAskCache)
    (base quote : String) : Option MicroEngineBidask :=
  match mapLookup self.base_quote_index base with
  | none => none
  | some inner =>
    match mapLookup inner quote with
    | none => none
    | some id => mapLookup self.prices id

/-- `get_quote_base` from `bidask/mod.rs`. -/
def MicroEngineBidAskCache.get_quote_base (self : MicroEngineBidAskCache)
    (quote base : String) : Option MicroEngineBidask :=
  match mapLookup self.quote_base_index quote with
  | none => none
  | some inner =>
    match mapLookup inner base with
    | none => none
    | some id => mapLookup self.prices id

/-- `get_price` from `bidask/mod.rs`: blank identity for equal symbols, else
direct entry, else reverse of the opposite entry, else cross solve. -/
def MicroEngineBidAskCache.get_price (self : MicroEngineBidAskCache)
    (base quote : String) : Option MicroEngineBidask :=
  if base = quote then
    some MicroEngineBidask.create_blank
  else
    let result :=
      match self.get_base_quote base quote with
      | some direct => some direct
      | none =>
        match self.get_quote_base base quote with
        | some r => some r.reverse
        | none => none
    match result with
    | some r => some r
    | none => self.crossNoSource base quote

/-- `handle_new` from `bidask/mod.rs`: upsert the price; on first sight of
the id also extend both direction indices. -/
def MicroEngineBidAskCache.handle_new (self : MicroEngineBidAskCache)
    (bid_ask : MicroEngineBidask) : MicroEngineBidAskCache :=
  let old_price := mapLookup self.prices bid_ask.id
  let prices := mapInsert self.prices bid_ask.id bid_ask
  match old_price with
  | some _ => { self with prices := prices }
  | none =>
    let inner_bq := (mapLookup self.base_quote_index bid_ask.base).getD []
    let base_quote_index := mapInsert self.base_quote_index bid_ask.base
      (mapInsert inner_bq bid_ask.quote bid_ask.id)
    let inner_qb := (mapLookup self.quote_base_index bid_ask.quote).getD []
    let quote_base_index := mapInsert self.quote_base_index bid_ask.quote
      (mapInsert inner_qb bid_ask.base bid_ask.id)
    { self with
        prices := prices
        base_quote_index := base_quote_index
        quote_base_index := quote_base_index }

/-- `get_price_with_source` from `bidask/mod.rs`: like `get_price` but also
returns the ids whose updates would move the result (`none` for the
identity and for a direct hit). -/
def MicroEngineBidAskCache.get_price_with_source (self : MicroEngineBidAskCache)
    (base quote : String) :
    Option (MicroEngineBidask × Option (List String)) :=
  if base = quote then
    some (MicroEngineBidask.create_blank, none)
  else
    match self.get_base_quote base quote with
    | some direct => some (direct, none)
    | none =>
      match self.get_quote_base base quote with
      | some r => some (r.reverse, some [r.id])
      | none =>
        match self.crossWithSource base quote with
        | some (cross, left, right) => some (cross, some [left, right])
        | none => none

/-- `MicroEnginePosition` from `positions/position.rs` (the swap timestamps
play no role in any computation and are omitted). -/
structure MicroEnginePosition where
  id : String
  trader_id : String
  account_id : String
  base : String
  quote : String
  collateral : String
  asset_pair : String
  lots_amount : ℚ
  contract_size : ℚ
  is_buy : Bool
  pl : ℚ
  commission : ℚ
  open_bidask : MicroEngineBidask
  active_bidask : MicroEngineBidask
  margin_bidask : MicroEngineBidask
  profit_bidask : MicroEngineBidask
  profit_price_assets_subscriptions : List String
  swaps_sum : ℚ

/-- `get_gross_pl` from `positions/position.rs`: `pl - commission + swaps_sum`. -/
def MicroEnginePosition.get_gross_pl (self : MicroEnginePosition) : ℚ :=
  self.pl - self.commission + self.swaps_sum

/-- The quote-updating half of `update_bidask` from `positions/position.rs`,
for an incoming price whose instrument settings resolved to
`instrument_settings`: update `active_bidask` (marked up) when the incoming
id is the position's asset pair, and update `profit_bidask` when the id is
subscribed — markup of the incoming instrument applied first, then a
reversal when the pair is inverted, otherwise a cache lookup. -/
def MicroEnginePosition.update_bidask_quotes (self : MicroEnginePosition)
    (bidask : MicroEngineBidask) (bidask_cache : MicroEngineBidAskCache)
    (settings : MicroEngineTradingGroupSettings)
    (instrument_settings : TradingGroupInstrumentSettings) : MicroEnginePosition :=
  let p := instrument_settings.calculate_bidask bidask
  let self :=
    if self.asset_pair = bidask.id then
      { self with active_bidask :=
          { self.active_bidask with bid := p.1, ask := p.2 } }
    else self
  let profit_hit := bidask.id ∈ self.profit_price_assets_subscriptions
  if profit_hit then
    if (bidask.base = self.quote ∧ bidask.quote = self.collateral)
        ∨ (bidask.base = self.collateral ∧ bidask.quote = self.quote) then
      let profit_price := bidask
      let profit_price :=
        match mapLookup settings.instruments bidask.id with
        | some profit_instrument_settings =>
          let q := profit_instrument_settings.calculate_bidask profit_price
          { profit_price with bid := q.1, ask := q.2 }
        | none => profit_price
      let profit_price :=
        if bidask.base = self.collateral ∧ bidask.quote = self.quote then
          profit_price.reverse
        else profit_price
      { self with profit_bidask := profit_price }
    else
      match bidask_cache.get_price self.quote self.collateral with
      | some profit_price =>
        let profit_price :=
          match mapLookup settings.instruments profit_price.id with
          | some profit_instrument_settings =>
            let q := profit_instrument_settings.calculate_bidask profit_price
            { profit_price with bid := q.1, ask := q.2 }
          | none => profit_price
        { self with profit_bidask := profit_price }
      | none => self
  else self

/-- The closing pl computation of `update_bidask` from
`positions/position.rs`: recompute `pl` from the (already updated) open,
active and profit bidasks, rounding to the collateral currency's digits
(2 when the collateral has no settings entry). -/
def MicroEnginePosition.with_recomputed_pl (self : MicroEnginePosition)
    (settings : MicroEngineTradingGroupSettings) : MicroEnginePosition :=
  let open_price := self.open_bidask.get_open_price self.is_buy
  let close_price := self.active_bidask.get_close_price self.is_buy
  let diff : ℚ :=
    match self.is_buy with
    | true => close_price - open_price
    | false => open_price - close_price
  let profit_price :=
    if 0 ≤ diff then self.profit_bidask.bid else self.profit_bidask.ask
  let raw_pl := diff * self.lots_amount * self.contract_size * profit_price
  let digits :=
    match mapLookup settings.collaterals self.collateral with
    | some c => c.digits
    | none => 2
  { self with pl := round_float_to_digits raw_pl digits }

/-- `update_bidask` from `positions/position.rs` (its body is
`update_bidask_quotes` followed by `with_recomputed_pl`; the early return
fires when the incoming instrument has no settings entry). -/
def MicroEnginePosition.update_bidask (self : MicroEnginePosition)
    (bidask : MicroEngineBidask) (bidask_cache : MicroEngineBidAskCache)
    (settings : MicroEngineTradingGroupSettings) : MicroEnginePosition :=
  match mapLookup settings.instruments bidask.id with
  | none => self
  | some instrument_settings =>
    (self.update_bidask_quotes bidask bidask_cache settings
      instrument_settings).with_recomputed_pl settings

/-- Modelled from the spec: `update_profit_bidask_from_cache` is called from
`positions/positions_cache.rs` but its definition is missing from the
sources; the call-site comment documents it as refreshing `profit_bidask`
from raw cache prices, with no markup applied (spec section 4.4 step 2,
cache branch, without settings). -/
def MicroEnginePosition.update_profit_bidask_from_cache
    (self : MicroEnginePosition) (bidask_cache : MicroEngineBidAskCache) :
    MicroEnginePosition :=
  match bidask_cache.get_price self.quote self.collateral with
  | some profit_price => { self with profit_bidask := profit_price }
  | none => self

/-- Modelled from the spec: `recalculate_pl` is called from
`positions/positions_cache.rs` but its definition is missing from the
sources; per spec section 4.4 step 3 it recomputes `pl` from the stored
open, active and profit bidasks. -/
def MicroEnginePosition.recalculate_pl (self : MicroEnginePosition)
    (settings : MicroEngineTradingGroupSettings) : MicroEnginePosition :=
  let open_price := self.open_bidask.get_open_price self.is_buy
  let close_price := self.active_bidask.get_close_price self.is_buy
  let diff : ℚ :=
    match self.is_buy with
    | true => close_price - open_price
    | false => open_price - close_price
  let profit_price :=
    if 0 ≤ diff then self.profit_bidask.bid else self.profit_bidask.ask
  let raw_pl := diff * self.lots_amount * self.contract_size * profit_price
  let digits :=
    match mapLookup settings.collaterals self.collateral with
    | some c => c.digits
    | none => 2
  { self with pl := round_float_to_digits raw_pl digits }

/-- `TradingSettingsCache` from `settings/mod.rs`: account to group mapping
plus the groups. -/
structure TradingSettingsCache where
  accounts_mapping : List (String × String)
  groups : List (String × MicroEngineTradingGroupSettings)

/-- `resolve_by_account` from `settings/mod.rs`. -/
def TradingSettingsCache.resolve_by_account (self : TradingSettingsCache)
    (account : String) : Option MicroEngineTradingGroupSettings :=
  match mapLookup self.accounts_mapping account with
  | none => none
  | some target_group => mapLookup self.groups target_group

/-- `PositionsCacheIndex` from `positions/positions_cache_index.rs`: the four
inverted indices (sets of position ids). -/
structure PositionsCacheIndex where
  trader_id_index : List (String × List String)
  account_id_index : List (String × List String)
  asset_pair_index : List (String × List String)
  profit_price_subscription_indexes : List (String × List String)

/-- `add_index` from `positions/positions_cache_index.rs`: insert the
position id under its trader, account, asset pair and every profit
subscription key. -/
def PositionsCacheIndex.add_index (self : PositionsCacheIndex)
    (position : MicroEnginePosition) : PositionsCacheIndex :=
  let trader_id_index := mapInsert self.trader_id_index position.trader_id
    (setInsert ((mapLookup self.trader_id_index position.trader_id).getD []) position.id)
  let account_id_index := mapInsert self.account_id_index position.account_id
    (setInsert ((mapLookup self.account_id_index position.account_id).getD []) position.id)
  let asset_pair_index := mapInsert self.asset_pair_index position.asset_pair
    (setInsert ((mapLookup self.asset_pair_index position.asset_pair).getD []) position.id)
  let profit_price_subscription_indexes :=
    position.profit_price_assets_subscriptions.foldl
      (fun idx profit_asset =>
        mapInsert idx profit_asset
          (setInsert ((mapLookup idx profit_asset).getD []) position.id))
      self.profit_price_subscription_indexes
  { trader_id_index := trader_id_index
    account_id_index := account_id_index
    asset_pair_index := asset_pair_index
    profit_price_subscription_indexes := profit_price_subscription_indexes }

/-- `MicroEnginePositionCalculationUpdate` from `positions/positions_cache.rs`. -/
structure MicroEnginePositionCalculationUpdate where
  account_id : String
  position_id : String
  gross_pl : ℚ
  deriving DecidableEq, Repr

/-- `MicroEnginePositionCache` from `positions/positions_cache.rs`. -/
structure MicroEnginePositionCache where
  indexes : PositionsCacheIndex
  positions : List (String × MicroEnginePosition)

/-- `get_account_positions` from `positions/positions_cache.rs`. -/
def MicroEnginePositionCache.get_account_positions
    (self : MicroEnginePositionCache) (account_id : String) :
    Option (List MicroEnginePosition) :=
  match mapLookup self.indexes.account_id_index account_id with
  | none => none
  | some ids => some (ids.filterMap (fun x => mapLookup self.positions x))

/-- `add_position` from `positions/positions_cache.rs`. -/
def MicroEnginePositionCache.add_position (self : MicroEnginePositionCache)
    (position : MicroEnginePosition) : MicroEnginePositionCache :=
  { indexes := self.indexes.add_index position
    positions := mapInsert self.positions position.id position }

/-- The per-position body of the `recalculate_positions_pl` loop from
`positions/positions_cache.rs`: resolve the group settings (skip the
position when missing), run `update_bidask`, and for positions needing a
currency conversion refresh `profit_bidask` from the raw cache and
recompute `pl`; record an update with the resulting gross PnL. -/
def recalcOnePosition (positions : List (String × MicroEnginePosition))
    (updates : List MicroEnginePositionCalculationUpdate)
    (target_price : MicroEngineBidask) (bidask_cache : MicroEngineBidAskCache)
    (settings_cache : TradingSettingsCache) (position_id : String) :
    List (String × MicroEnginePosition) × List MicroEnginePositionCalculationUpdate :=
  match mapLookup positions position_id with
  | none => (positions, updates)
  | some position =>
    match settings_cache.resolve_by_account position.account_id with
    | none => (positions, updates)
    | some group_settings =>
      let position := position.update_bidask target_price bidask_cache group_settings
      let position :=
        if position.quote ≠ position.collateral then
          (position.update_profit_bidask_from_cache bidask_cache).recalculate_pl
            group_settings
        else position
      (mapInsert positions position.id position,
        updates ++ [{ account_id := position.account_id
                      position_id := position.id
                      gross_pl := position.get_gross_pl }])

/-- `recalculate_positions_pl` from `positions/positions_cache.rs`: for every
dirty price id present in the cache, re-store the price and update every
position indexed under it by asset pair or by profit subscription. Returns
`none` when no update was produced. -/
def MicroEnginePositionCache.recalculate_positions_pl
    (self : MicroEnginePositionCache) (updated_prices : List String)
    (bidask_cache : MicroEngineBidAskCache) (settings_cache : TradingSettingsCache) :
    MicroEnginePositionCache × MicroEngineBidAskCache
      × Option (List MicroEnginePositionCalculationUpdate) :=
  if updated_prices.isEmpty then (self, bidask_cache, none)
  else
    let result := updated_prices.foldl
      (fun (st : MicroEnginePositionCache × MicroEngineBidAskCache
          × List MicroEnginePositionCalculationUpdate) price_id =>
        let (cache, bidask_cache, updates) := st
        match bidask_cache.get_by_id price_id with
        | none => (cache, bidask_cache, updates)
        | some target_price =>
          let bidask_cache := bidask_cache.handle_new target_price
          let position_ids :=
            ((mapLookup cache.indexes.asset_pair_index price_id).getD [])
              ++ ((mapLookup cache.indexes.profit_price_subscription_indexes
                    price_id).getD [])
          let (positions, updates) := position_ids.foldl
            (fun (acc : List (String × MicroEnginePosition)
                × List MicroEnginePositionCalculationUpdate) position_id =>
              recalcOnePosition acc.1 acc.2 target_price bidask_cache
                settings_cache position_id)
            (cache.positions, updates)
          ({ cache with positions := positions }, bidask_cache, updates))
      (self, bidask_cache, [])
    (result.1, result.2.1, if result.2.2.isEmpty then none else some result.2.2)

/-- `MicroEngineAccountCalculationUpdate` from `accounts/account.rs`. -/
structure MicroEngineAccountCalculationUpdate where
  account_id : String
  margin : ℚ
  equity : ℚ
  free_margin : ℚ
  margin_level : ℚ
  total_gross : ℚ
  deriving DecidableEq, Repr

/-- `MicroEngineAccount` from `accounts/account.rs`. -/
structure MicroEngineAccount where
  id : String
  trader_id : String
  trading_group : String
  balance : ℚ
  leverage : ℚ
  margin : ℚ
  equity : ℚ
  free_margin : ℚ
  margin_level : ℚ

/-- `calculate_specific_instrument_margin_and_gross_pl` from
`accounts/account.rs`: one instrument group, hedged and unhedged margin
plus the summed gross PnL. -/
def calculate_specific_instrument_margin_and_gross_pl
    (positions : List MicroEnginePosition) (account : MicroEngineAccount)
    (hedge_coef : Option ℚ) (settings : TradingGroupInstrumentSettings) : ℚ × ℚ :=
  if positions.isEmpty then (0, 0)
  else
    let leverage :=
      match settings.max_leverage with
      | some x => min x account.leverage
      | none => account.leverage
    let total_gross_pl := (positions.map (fun p => p.get_gross_pl)).sum
    let buy_positions := positions.filter (fun p => p.is_buy)
    let sell_positions := positions.filter (fun p => ¬ p.is_buy)
    let buy_margin_price_sum := (buy_positions.map
      (fun p => p.margin_bidask.get_open_price p.is_buy * p.lots_amount)).sum
    let sell_margin_price_sum := (sell_positions.map
      (fun p => p.margin_bidask.get_open_price p.is_buy * p.lots_amount)).sum
    let buy_volume := (buy_positions.map (fun p => p.lots_amount)).sum
    let sell_volume := (sell_positions.map (fun p => p.lots_amount)).sum
    let contract_size_sum := (positions.map (fun p => p.contract_size)).sum
    let positions_len : ℚ := positions.length
    let contract_size := contract_size_sum / positions_len
    let hedged_volume := min buy_volume sell_volume
    let hedged_margin :=
      if 0 < buy_volume ∧ 0 < sell_volume then
        let hedged_margin_coef := hedge_coef.getD 1
        let hedged_margin_price :=
          (buy_margin_price_sum + sell_margin_price_sum) / (buy_volume + sell_volume)
        hedged_volume * contract_size * hedged_margin_price / leverage
          * hedged_margin_coef
      else 0
    let not_hedged_margin_price :=
      if sell_volume < buy_volume then buy_margin_price_sum / buy_volume
      else sell_margin_price_sum / sell_volume
    let not_hedged_volume := |buy_volume - sell_volume|
    let not_hedge_margin :=
      not_hedged_volume * contract_size * not_hedged_margin_price / leverage
    (hedged_margin + not_hedge_margin, total_gross_pl)

/-- The loop body of `MicroEngineAccount::calculate_margin_and_gross_pl`
from `accounts/account.rs`: for one asset-pair group, add the instrument's
margin and gross to the running totals when the instrument has settings,
else leave the totals unchanged. -/
def marginGrossStep (account_positions : List MicroEnginePosition)
    (account : MicroEngineAccount) (hedge_coef : Option ℚ)
    (settings : MicroEngineTradingGroupSettings) (acc : ℚ × ℚ) (asset : String) :
    ℚ × ℚ :=
  match mapLookup settings.instruments asset with
  | some target_settings =>
    let r := calculate_specific_instrument_margin_and_gross_pl
      (account_positions.filter (fun p => p.asset_pair = asset))
      account hedge_coef target_settings
    (acc.1 + r.1, acc.2 + r.2)
  | none => acc

/-- The margin/gross contribution of one asset-pair group in
`calculate_margin_and_gross_pl`: `(0, 0)` when the instrument has no
settings entry, the per-instrument result otherwise. -/
def instrumentCalc (account_positions : List MicroEnginePosition)
    (account : MicroEngineAccount) (hedge_coef : Option ℚ)
    (settings : MicroEngineTradingGroupSettings) (asset : String) : ℚ × ℚ :=
  match mapLookup settings.instruments asset with
  | some target_settings =>
    calculate_specific_instrument_margin_and_gross_pl
      (account_positions.filter (fun p => p.asset_pair = asset))
      account hedge_coef target_settings
  | none => (0, 0)

/-- `MicroEngineAccount::calculate_margin_and_gross_pl` from
`accounts/account.rs`: group the account's positions by asset pair and sum
the per-instrument results over the groups that have instrument settings.
(The Rust `HashMap` iterates its groups in unspecified order; sums in `ℚ`
are order independent, so the first-appearance order used here is a
faithful model.) -/
def MicroEngineAccount.calculate_margin_and_gross_pl (self : MicroEngineAccount)
    (account_positions : List MicroEnginePosition) (hedge_coef : Option ℚ)
    (settings : MicroEngineTradingGroupSettings) : ℚ × ℚ :=
  let assets := (account_positions.map (fun p => p.asset_pair)).dedup
  assets.foldl (marginGrossStep account_positions self hedge_coef settings) (0, 0)

/-- `MicroEngineAccount::recalculate_account_data` from
`accounts/account.rs`: store margin, equity, free margin and margin level
and return the update record. -/
def MicroEngineAccount.recalculate_account_data (self : MicroEngineAccount)
    (account_positions : List MicroEnginePosition)
    (settings : MicroEngineTradingGroupSettings) :
    MicroEngineAccount × MicroEngineAccountCalculationUpdate :=
  let r := self.calculate_margin_and_gross_pl account_positions
    settings.hedge_coef settings
  let margin := r.1
  let gross_pl := r.2
  let self := { self with
    margin := margin
    equity := self.balance + gross_pl
    free_margin := self.balance + gross_pl - margin
    margin_level :=
      if margin < 1 / 100000 then 0 else (self.balance + gross_pl) / margin * 100 }
  (self,
    { account_id := self.id
      margin := self.margin
      equity := self.equity
      free_margin := self.free_margin
      margin_level := self.margin_level
      total_gross := gross_pl })

/-- `MicroEngineAccountCache` from `accounts/account_cache.rs`. -/
structure MicroEngineAccountCache where
  trader_index : List (String × List String)
  accounts : List (String × MicroEngineAccount)

/-- `MicroEngineAccountCache::recalculate_account_data` from
`accounts/account_cache.rs`: `none` when the account has no settings
mapping or no account record. -/
def MicroEngineAccountCache.recalculate_account_data
    (self : MicroEngineAccountCache) (settings : TradingSettingsCache)
    (positions_cache : MicroEnginePositionCache) (account_id : String) :
    Option (MicroEngineAccountCache × MicroEngineAccountCalculationUpdate) :=
  match settings.resolve_by_account account_id with
  | none => none
  | some account_settings =>
    let account_positions := (positions_cache.get_account_positions account_id).getD []
    match mapLookup self.accounts account_id with
    | none => none
    | some account =>
      let r := account.recalculate_account_data account_positions account_settings
      some ({ self with accounts := mapInsert self.accounts account_id r.1 }, r.2)

/-- `recalculate_accounts_data` from `accounts/account_cache.rs`: per-account
recalculation over a list of ids, skipping accounts without settings or
record. -/
def MicroEngineAccountCache.recalculate_accounts_data
    (self : MicroEngineAccountCache) (settings : TradingSettingsCache)
    (positions_cache : MicroEnginePositionCache) (updated_accounts : List String) :
    MicroEngineAccountCache × List MicroEngineAccountCalculationUpdate :=
  updated_accounts.foldl
    (fun (st : MicroEngineAccountCache × List MicroEngineAccountCalculationUpdate)
        account_id =>
      match st.1.recalculate_account_data settings positions_cache account_id with
      | some (cache, upd) => (cache, st.2 ++ [upd])
      | none => st)
    (self, [])

/-- `MicroEngineError` from `lib.rs` (the `ProfitPriceNotFond` spelling is
the source's). -/
inductive MicroEngineError where
  | ProfitPriceNotFond
  | AccountNotFound
  | PositionNotFound
  | AccountSettingsNotFound (group : String)
  deriving DecidableEq, Repr

/-- `MicroEngine` from `lib.rs`: the four caches plus the dirty set of
updated price ids. -/
structure MicroEngine where
  accounts : MicroEngineAccountCache
  positions_cache : MicroEnginePositionCache
  settings_cache : TradingSettingsCache
  bidask_cache : MicroEngineBidAskCache
  updated_assets : List String

/-- `handle_new_price` from `lib.rs`: mark each incoming id dirty and upsert
the price into the price cache. -/
def MicroEngine.handle_new_price (self : MicroEngine)
    (new_bidask : List MicroEngineBidask) : MicroEngine :=
  new_bidask.foldl
    (fun e bidask =>
      { e with
          updated_assets := setInsert e.updated_assets bidask.id
          bidask_cache := e.bidask_cache.handle_new bidask })
    self

/-- `insert_or_update_position` from `lib.rs`: resolve the conversion
subscriptions (fail with `ProfitPriceNotFond` when unresolved), store the
position, then recompute its account (fail with `AccountNotFound` when the
account does not resolve — the position stays stored). The mutated engine
is returned alongside the result. -/
def MicroEngine.insert_or_update_position (self : MicroEngine)
    (position : MicroEnginePosition) :
    MicroEngine × Except MicroEngineError MicroEngineAccountCalculationUpdate :=
  match self.bidask_cache.get_price_with_source position.quote position.collateral with
  | none => (self, Except.error MicroEngineError.ProfitPriceNotFond)
  | some (_, sources) =>
    let position :=
      { position with profit_price_assets_subscriptions := sources.getD [] }
    let self := { self with
      positions_cache := self.positions_cache.add_position position }
    match self.accounts.recalculate_account_data self.settings_cache
        self.positions_cache position.account_id with
    | some (accounts, upd) => ({ self with accounts := accounts }, Except.ok upd)
    | none => (self, Except.error MicroEngineError.AccountNotFound)

/-- `recalculate_accordint_to_updates` from `lib.rs`: return (none, none)
when the dirty set is empty, otherwise drain it, recompute the touched
positions and then the affected accounts. -/
def MicroEngine.recalculate_accordint_to_updates (self : MicroEngine) :
    MicroEngine × (Option (List MicroEngineAccountCalculationUpdate)
      × Option (List MicroEnginePositionCalculationUpdate)) :=
  if self.updated_assets.isEmpty then (self, (none, none))
  else
    let updated_prices := self.updated_assets
    let self := { self with updated_assets := [] }
    let r := self.positions_cache.recalculate_positions_pl updated_prices
      self.bidask_cache self.settings_cache
    let self := { self with positions_cache := r.1, bidask_cache := r.2.1 }
    match r.2.2 with
    | none => (self, (none, none))
    | some positions_update_result =>
      let updated_accounts := positions_update_result.map (fun x => x.account_id)
      let a := self.accounts.recalculate_accounts_data self.settings_cache
        self.positions_cache updated_accounts
      ({ self with accounts := a.1 },
        (some a.2, some positions_update_result))

/-- The conversion price computed in the order claim C2 states it: take
`.reverse()` of the incoming bidask first, then apply the markup/spread
settings of the incoming instrument. Written from the spec sentence, to be
compared against what `update_bidask` computes. -/
def profit_bidask_reverse_then_markup (bidask : MicroEngineBidask)
    (s : TradingGroupInstrumentSettings) : MicroEngineBidask :=
  let r := bidask.reverse
  { r with bid := (s.calculate_bidask r).1, ask := (s.calculate_bidask r).2 }

/-- Instrument settings with an asymmetric markup, for the concrete
conversion scenarios. -/
def sC2 : TradingGroupInstrumentSettings :=
  { digits := 5
    max_leverage := none
    markup_settings := some
      { markup_bid := 0, markup_ask := 1, min_spread := none, max_spread := none } }

/-- Trading-group settings holding only the USDCAD instrument. -/
def settingsC2 : MicroEngineTradingGroupSettings :=
  { id := "tg1", hedge_coef := none, instruments := [("USDCAD", sC2)]
    collaterals := [("USD", { digits := 2 })] }

/-- An incoming USDCAD tick (base USD, quote CAD). -/
def bidaskC2 : MicroEngineBidask :=
  { id := "USDCAD", bid := 2, ask := 3, base := "USD", quote := "CAD" }

/-- A price cache with no stored prices and a cross solver that resolves
nothing. -/
def emptyCache : MicroEngineBidAskCache :=
  { prices := [], base_quote_index := [], quote_base_index := []
    crossNoSource := fun _ _ => none, crossWithSource := fun _ _ => none }

/-- A position quoted in CAD on a USD account, subscribed to USDCAD for its
conversion rate. -/
def posC2 : MicroEnginePosition :=
  { id := "pos1", trader_id := "tr1", account_id := "acc1"
    base := "USD", quote := "CAD", collateral := "USD", asset_pair := "EURCAD"
    lots_amount := 1, contract_size := 1, is_buy := true, pl := 0, commission := 0
    open_bidask := MicroEngineBidask.create_blank
    active_bidask := MicroEngineBidask.create_blank
    margin_bidask := MicroEngineBidask.create_blank
    profit_bidask := MicroEngineBidask.create_blank
    profit_price_assets_subscriptions := ["USDCAD"]
    swaps_sum := 0 }

/-- An empty position cache. -/
def engPositionsEmpty : MicroEnginePositionCache :=
  { indexes := { trader_id_index := [], account_id_index := []
                 asset_pair_index := [], profit_price_subscription_indexes := [] }
    positions := [] }

/-- An engine with all caches empty and an empty dirty set. -/
def engEmpty : MicroEngine :=
  { accounts := { trader_index := [], accounts := [] }
    positions_cache := engPositionsEmpty
    settings_cache := { accounts_mapping := [], groups := [] }
    bidask_cache := emptyCache
    updated_assets := [] }

/-- A stored EURUSD price for the price-resolution scenarios. -/
def bidEURUSD : MicroEngineBidask :=
  { id := "EURUSD", bid := 3/2, ask := 2, base := "EUR", quote := "USD" }

/-- A price cache holding exactly the EURUSD price (directly indexed both
ways) and no cross resolution. -/
def cacheDirect : MicroEngineBidAskCache :=
  { prices := [("EURUSD", bidEURUSD)]
    base_quote_index := [("EUR", [("USD", "EURUSD")])]
    quote_base_index := [("USD", [("EUR", "EURUSD")])]
    crossNoSource := fun _ _ => none
    crossWithSource := fun _ _ => none }

/-- A position whose quote equals its collateral (USD), on an account the
empty engine does not know. -/
def posC10a : MicroEnginePosition :=
  { id := "pos1", trader_id := "tr1", account_id := "acc1"
    base := "EUR", quote := "USD", collateral := "USD", asset_pair := "EURUSD"
    lots_amount := 1, contract_size := 1, is_buy := true, pl := 0, commission := 0
    open_bidask := MicroEngineBidask.create_blank
    active_bidask := MicroEngineBidask.create_blank
    margin_bidask := MicroEngineBidask.create_blank
    profit_bidask := MicroEngineBidask.create_blank
    profit_price_assets_subscriptions := []
    swaps_sum := 0 }

/-- Like `posC10a` but quoted in CAD, so the empty cache cannot resolve its
conversion price. -/
def posC10b : MicroEnginePosition :=
  { posC10a with quote := "CAD" }

/-- A stored USDCAD price. -/
def bidUSDCAD : MicroEngineBidask :=
  { id := "USDCAD", bid := 3/2, ask := 2, base := "USD", quote := "CAD" }

/-- A price cache holding exactly the USDCAD price: a CAD to USD conversion
resolves through the reversed entry. -/
def cacheC5 : MicroEngineBidAskCache :=
  { prices := [("USDCAD", bidUSDCAD)]
    base_quote_index := [("USD", [("CAD", "USDCAD")])]
    quote_base_index := [("CAD", [("USD", "USDCAD")])]
    crossNoSource := fun _ _ => none
    crossWithSource := fun _ _ => none }

/-- The empty engine equipped with the USDCAD cache. -/
def engC5 : MicroEngine := { engEmpty with bidask_cache := cacheC5 }

/-- A USDCAD position (quote CAD, collateral USD). -/
def posC5 : MicroEnginePosition :=
  { posC10a with quote := "CAD", asset_pair := "USDCAD", base := "USD" }

/-- A directly stored CADUSD price (base CAD, quote USD). -/
def bidCADUSD : MicroEngineBidask :=
  { id := "CADUSD", bid := 1, ask := 1, base := "CAD", quote := "USD" }

/-- A price cache holding exactly the CADUSD price: a CAD to USD conversion
is a direct hit. -/
def cacheC5x : MicroEngineBidAskCache :=
  { prices := [("CADUSD", bidCADUSD)]
    base_quote_index := [("CAD", [("USD", "CADUSD")])]
    quote_base_index := [("USD", [("CAD", "CADUSD")])]
    crossNoSource := fun _ _ => none
    crossWithSource := fun _ _ => none }

/-- A trading group with no configured instruments. -/
def settingsC5x : MicroEngineTradingGroupSettings :=
  { id := "tg", hedge_coef := none, instruments := [], collaterals := [] }

/-- A zero-balance account in group tg. -/
def accC5x : MicroEngineAccount :=
  { id := "acc1", trader_id := "tr1", trading_group := "tg", balance := 0
    leverage := 1, margin := 0, equity := 0, free_margin := 0, margin_level := 0 }

/-- An engine knowing the account `accC5x`, the group `settingsC5x` and the
direct CADUSD price. -/
def engC5x : MicroEngine :=
  { accounts := { trader_index := [("tr1", ["acc1"])], accounts := [("acc1", accC5x)] }
    positions_cache := engPositionsEmpty
    settings_cache := { accounts_mapping := [("acc1", "tg")]
                        groups := [("tg", settingsC5x)] }
    bidask_cache := cacheC5x
    updated_assets := [] }

/-- A CADUSD position (quote CAD, collateral USD) whose conversion resolves
through the directly stored CADUSD price. -/
def posC5x : MicroEnginePosition :=
  { posC10a with quote := "CAD", asset_pair := "CADUSD", base := "CAD" }

/-- An account with balance 100. -/
def accC8 : MicroEngineAccount :=
  { id := "ACC1", trader_id := "tr", trading_group := "tg", balance := 100
    leverage := 1, margin := 0, equity := 0, free_margin := 0, margin_level := 0 }

/-- A position with a non-zero floating pl on an instrument the group does
not configure. -/
def posC8 : MicroEnginePosition :=
  { posC10a with asset_pair := "XAUUSD", pl := 5 }

/-- A trading group with no configured instruments. -/
def settingsC8 : MicroEngineTradingGroupSettings :=
  { id := "tg", hedge_coef := none, instruments := [], collaterals := [] }

/-- The first projection of `recalculate_accordint_to_updates` leaves the
dirty set empty: either the early return fired with an already empty set,
or the set was drained. -/
theorem recalc_clears_dirty (e : MicroEngine) :
    e.recalculate_accordint_to_updates.1.updated_assets = [] := by
  unfold MicroEngine.recalculate_accordint_to_updates
  by_cases h : e.updated_assets.isEmpty = true
  · simp [if_pos h, List.isEmpty_iff.mp h]
  · rw [if_neg h]
    dsimp only
    split <;> rfl

/-- Recalculation on an engine with an empty dirty set returns the engine
unchanged together with (none, none). -/
theorem recalc_of_empty (e : MicroEngine) (h : e.updated_assets = []) :
    e.recalculate_accordint_to_updates = (e, (none, none)) := by
  unfold MicroEngine.recalculate_accordint_to_updates
  simp [h]

/-- `update_bidask_quotes` only rewrites the active and profit bidask
snapshots: every other field of the position is preserved. -/
theorem update_bidask_quotes_fields (p : MicroEnginePosition)
    (bidask : MicroEngineBidask) (cache : MicroEngineBidAskCache)
    (settings : MicroEngineTradingGroupSettings)
    (i : TradingGroupInstrumentSettings) :
    let q := p.update_bidask_quotes bidask cache settings i
    q.open_bidask = p.open_bidask ∧ q.is_buy = p.is_buy
    ∧ q.lots_amount = p.lots_amount ∧ q.contract_size = p.contract_size
    ∧ q.commission = p.commission ∧ q.swaps_sum = p.swaps_sum
    ∧ q.collateral = p.collateral := by
  dsimp only
  unfold MicroEnginePosition.update_bidask_quotes
  refine ⟨?_, ?_, ?_, ?_, ?_, ?_, ?_⟩ <;> (dsimp only; repeat' split) <;> rfl

/-- `with_recomputed_pl` writes exactly the spec's floating-PnL formula into
`pl` and leaves all the inputs of that formula unchanged. -/
theorem with_recomputed_pl_spec (q : MicroEnginePosition)
    (settings : MicroEngineTradingGroupSettings) :
    let p' := q.with_recomputed_pl settings
    let open_price := if p'.is_buy then p'.open_bidask.ask else p'.open_bidask.bid
    let close_price := if p'.is_buy then p'.active_bidask.bid else p'.active_bidask.ask
    let diff := if p'.is_buy then close_price - open_price else open_price - close_price
    let conv := if 0 ≤ diff then p'.profit_bidask.bid else p'.profit_bidask.ask
    let digits :=
      match mapLookup settings.collaterals q.collateral with
      | some c => c.digits
      | none => 2
    p'.pl = round_float_to_digits (diff * q.lots_amount * q.contract_size * conv) digits
    ∧ p'.open_bidask = q.open_bidask ∧ p'.is_buy = q.is_buy
    ∧ p'.lots_amount = q.lots_amount ∧ p'.contract_size = q.contract_size
    ∧ p'.commission = q.commission ∧ p'.swaps_sum = q.swaps_sum := by
  dsimp only
  unfold MicroEnginePosition.with_recomputed_pl
  cases hb : q.is_buy <;>
    simp [hb, MicroEngineBidask.get_open_price, MicroEngineBidask.get_close_price]

/-- Folding `marginGrossStep` over a list of asset pairs adds the summed
per-instrument margins and grosses to the accumulator. -/
theorem foldl_marginGrossStep (ps : List MicroEnginePosition)
    (account : MicroEngineAccount) (hc : Option ℚ)
    (settings : MicroEngineTradingGroupSettings) (assets : List String) (x y : ℚ) :
    assets.foldl (marginGrossStep ps account hc settings) (x, y)
    = (x + (assets.map (fun a => (instrumentCalc ps account hc settings a).1)).sum,
       y + (assets.map (fun a => (instrumentCalc ps account hc settings a).2)).sum) := by
  induction assets generalizing x y with
  | nil => simp
  | cons a tl ih =>
    rcases hl : mapLookup settings.instruments a with _ | t <;>
      simp [List.foldl_cons, marginGrossStep, instrumentCalc, hl, ih, add_assoc]

/-- The gross component of a per-instrument calculation is the plain sum of
the group's gross PnLs (also for an empty group, where both sides are 0). -/
theorem specific_gross (positions : List MicroEnginePosition)
    (account : MicroEngineAccount) (hc : Option ℚ)
    (t : TradingGroupInstrumentSettings) :
    (calculate_specific_instrument_margin_and_gross_pl positions account hc t).2
    = (positions.map MicroEnginePosition.get_gross_pl).sum := by
  unfold calculate_specific_instrument_margin_and_gross_pl
  by_cases hpe : positions.isEmpty
  · simp [hpe, List.isEmpty_iff.mp hpe]
  · simp [hpe]

/-- Summing an indicator over a duplicate-free list containing the hit key
yields the indicated value. -/
theorem sum_map_ite_single (K : List String) (a : String) (c : ℚ)
    (hnd : K.Nodup) (ha : a ∈ K) :
    (K.map (fun k => if a = k then c else 0)).sum = c := by
  induction K with
  | nil => cases ha
  | cons b tl ih =>
    rcases List.nodup_cons.mp hnd with ⟨hb, hndt⟩
    rcases List.mem_cons.mp ha with h | h
    · subst h
      have hne : ∀ k ∈ tl, a ≠ k := by
        intro k hk e
        subst e
        exact hb hk
      have h0 : (tl.map (fun k => if a = k then c else 0)).sum = 0 := by
        apply List.sum_eq_zero
        intro x hx
        rcases List.mem_map.mp hx with ⟨k, hk, rfl⟩
        simp [hne k hk]
      simp [h0]
    · have hba : ¬ (a = b) := by
        intro e
        subst e
        exact hb h
      simp [hba, ih hndt h]

/-- A sum of pointwise sums splits into two sums. -/
theorem sum_map_add_split (K : List String) (f g : String → ℚ) :
    (K.map (fun k => f k + g k)).sum = (K.map f).sum + (K.map g).sum := by
  induction K with
  | nil => simp
  | cons b tl ih =>
    simp [ih]
    ring

/-- Summing the filtered per-fiber sums over a duplicate-free key list that
covers every position equals the sum over the positions whose key satisfies
the predicate. -/
theorem sum_fiberwise (ps : List MicroEnginePosition)
    (f : MicroEnginePosition → ℚ) (pred : String → Prop) [DecidablePred pred]
    (K : List String) (hnd : K.Nodup)
    (hcov : ∀ p ∈ ps, p.asset_pair ∈ K) :
    (K.map (fun k => if pred k then
        ((ps.filter (fun p => p.asset_pair = k)).map f).sum else 0)).sum
    = ((ps.filter (fun p => pred p.asset_pair)).map f).sum := by
  induction ps with
  | nil => simp
  | cons p tl ih =>
    have hcovt : ∀ q ∈ tl, q.asset_pair ∈ K :=
      fun q hq => hcov q (List.mem_cons_of_mem _ hq)
    have hmem : p.asset_pair ∈ K := hcov p (List.mem_cons_self _ _)
    have hterm : ∀ k ∈ K,
        (if pred k then
          (((p :: tl).filter (fun q => q.asset_pair = k)).map f).sum else 0)
        = (if p.asset_pair = k ∧ pred k then f p else 0)
          + (if pred k then
              ((tl.filter (fun q => q.asset_pair = k)).map f).sum else 0) := by
      intro k _
      by_cases hp : pred k <;> by_cases hak : p.asset_pair = k <;>
        simp [hp, hak, List.filter_cons]
    rw [List.map_congr_left hterm, sum_map_add_split, ih hcovt]
    by_cases hpp : pred p.asset_pair
    · have heq : ∀ k ∈ K, (if p.asset_pair = k ∧ pred k then f p else 0)
          = (if p.asset_pair = k then f p else 0) := by
        intro k _
        by_cases hak : p.asset_pair = k
        · simp [hak, hak ▸ hpp]
        · simp [hak]
      rw [List.map_congr_left heq, sum_map_ite_single K p.asset_pair (f p) hnd hmem]
      simp [List.filter_cons, hpp]
    · have heq : ∀ k ∈ K, (if p.asset_pair = k ∧ pred k then f p else 0) = 0 := by
        intro k _
        by_cases hak : p.asset_pair = k
        · simp [hak, hak ▸ hpp]
        · simp [hak]
      rw [List.map_congr_left heq]
      simp [List.filter_cons, hpp]

/-- Looking up the freshly upserted key returns the new value. -/
theorem mapLookup_mapInsert_self {α : Type} (m : List (String × α)) (k : String)
    (v : α) : mapLookup (mapInsert m k v) k = some v := by
  simp [mapLookup, mapInsert]

/-- Dropping the entries of one key does not change lookups of other keys. -/
theorem mapLookup_filter_ne {α : Type} (m : List (String × α)) (k k' : String)
    (h : ¬ (k' = k)) :
    mapLookup (m.filter (fun kv => kv.1 != k)) k' = mapLookup m k' := by
  induction m with
  | nil => rfl
  | cons kv tl ih =>
    by_cases h2 : kv.1 = k'
    · have hne : (kv.1 != k) = true := by
        simp only [bne_iff_ne, ne_eq]
        rw [h2]
        exact h
      simp [List.filter_cons, mapLookup, List.find?, hne, h2, h]
    · have h2' : (kv.1 == k') = false := by simp [h2]
      by_cases h3 : kv.1 = k
      · have hne : (kv.1 != k) = false := by simp [h3]
        rw [List.filter_cons]
        rw [hne]
        simp only [mapLookup, List.find?, h2'] at ih ⊢
        exact ih
      · have hne : (kv.1 != k) = true := by simp [h3]
        rw [List.filter_cons]
        rw [hne]
        simp only [mapLookup, List.find?, h2', cond_false] at ih ⊢
        exact ih

/-- Upserting one key does not change lookups of other keys. -/
theorem mapLookup_mapInsert_other {α : Type} (m : List (String × α))
    (k : String) (v : α) (k' : String) (h : ¬ (k' = k)) :
    mapLookup (mapInsert m k v) k' = mapLookup m k' := by
  have hne : (k == k') = false := by
    simp
    intro e
    exact h e.symm
  rw [mapInsert]
  simp only [mapLookup, List.find?, hne, cond_false]
  exact mapLookup_filter_ne m k k' h

/-- A key is a member of the set it was just inserted into. -/
theorem mem_setInsert_self (s : List String) (k : String) : k ∈ setInsert s k := by
  by_cases h : k ∈ s <;> simp [setInsert, h]

/-- Set insertion preserves the existing members. -/
theorem mem_setInsert_of_mem (s : List String) (k x : String) (h : x ∈ s) :
    x ∈ setInsert s k := by
  by_cases hk : k ∈ s <;> simp [setInsert, hk, h]

/-- After folding the profit-subscription insertions of `add_index` over a
subscription list, the position id is present under every subscribed key
(and stays present wherever it already was). -/
theorem profit_fold_mem (pid : String) (subs : List String) (a : String)
    (idx : List (String × List String))
    (h : a ∈ subs ∨ pid ∈ (mapLookup idx a).getD []) :
    pid ∈ (mapLookup
      (subs.foldl
        (fun i profit_asset =>
          mapInsert i profit_asset
            (setInsert ((mapLookup i profit_asset).getD []) pid))
        idx) a).getD [] := by
  induction subs generalizing idx with
  | nil =>
    rcases h with h | h
    · cases h
    · exact h
  | cons b tl ih =>
    rw [List.foldl_cons]
    apply ih
    rcases h with h | h
    · rcases List.mem_cons.mp h with rfl | h2
      · right
        rw [mapLookup_mapInsert_self]
        exact mem_setInsert_self _ _
      · left
        exact h2
    · right
      by_cases hab : a = b
      · subst hab
        rw [mapLookup_mapInsert_self]
        exact mem_setInsert_of_mem _ _ _ h
      · rw [mapLookup_mapInsert_other _ _ _ _ hab]
        exact h

/-- C1: for every position recomputed via `update_bidask` (the incoming
instrument has a settings entry), the floating PnL is computed as the spec
states: open price is the open bidask's ask for a buy and bid for a sell,
close price is the active bidask's bid for a buy and ask for a sell, diff
is close minus open for a buy and open minus close for a sell, the
conversion factor is the profit bidask's bid when diff is nonnegative and
its ask otherwise, the stored pl is diff times lots times contract size
times the conversion factor rounded to the collateral currency's digits
(default 2 when the collateral has no settings entry), and `get_gross_pl`
returns pl minus commission plus swaps at full precision. -/
theorem C1_update_bidask_floating_pl (p : MicroEnginePosition)
    (bidask : MicroEngineBidask) (cache : MicroEngineBidAskCache)
    (settings : MicroEngineTradingGroupSettings)
    (s : TradingGroupInstrumentSettings)
    (h : mapLookup settings.instruments bidask.id = some s) :
    let p' := p.update_bidask bidask cache settings
    let open_price := if p'.is_buy then p'.open_bidask.ask else p'.open_bidask.bid
    let close_price := if p'.is_buy then p'.active_bidask.bid else p'.active_bidask.ask
    let diff := if p'.is_buy then close_price - open_price else open_price - close_price
    let conv := if 0 ≤ diff then p'.profit_bidask.bid else p'.profit_bidask.ask
    let digits :=
      match mapLookup settings.collaterals p.collateral with
      | some c => c.digits
      | none => 2
    p'.pl = round_float_to_digits (diff * p.lots_amount * p.contract_size * conv) digits
    ∧ p'.open_bidask = p.open_bidask
    ∧ p'.is_buy = p.is_buy
    ∧ p'.lots_amount = p.lots_amount
    ∧ p'.contract_size = p.contract_size
    ∧ p'.commission = p.commission
    ∧ p'.swaps_sum = p.swaps_sum
    ∧ p'.get_gross_pl = p'.pl - p.commission + p.swaps_sum := by
  have key : p.update_bidask bidask cache settings
      = (p.update_bidask_quotes bidask cache settings s).with_recomputed_pl settings := by
    unfold MicroEnginePosition.update_bidask
    rw [h]
  have hq := update_bidask_quotes_fields p bidask cache settings s
  have hp := with_recomputed_pl_spec
    (p.update_bidask_quotes bidask cache settings s) settings
  dsimp only at hq hp ⊢
  rw [key]
  obtain ⟨h1, h2, h3, h4, h5, h6, h7⟩ := hq
  obtain ⟨g1, g2, g3, g4, g5, g6, g7⟩ := hp
  rw [h3, h4, h7] at g1
  refine ⟨g1, g2.trans h1, g3.trans h2, g4.trans h3, g5.trans h4, g6.trans h5,
    g7.trans h6, ?_⟩
  simp [MicroEnginePosition.get_gross_pl, g6.trans h5, g7.trans h6]

/-- C1 witness: the floating-PnL law evaluated at a concrete USDCAD tick on
a concrete CAD-quoted, USD-collateralised position. -/
theorem C1_update_bidask_floating_pl_witness :
    let p' := posC2.update_bidask bidaskC2 emptyCache settingsC2
    let open_price := if p'.is_buy then p'.open_bidask.ask else p'.open_bidask.bid
    let close_price := if p'.is_buy then p'.active_bidask.bid else p'.active_bidask.ask
    let diff := if p'.is_buy then close_price - open_price else open_price - close_price
    let conv := if 0 ≤ diff then p'.profit_bidask.bid else p'.profit_bidask.ask
    let digits :=
      match mapLookup settingsC2.collaterals posC2.collateral with
      | some c => c.digits
      | none => 2
    p'.pl = round_float_to_digits
        (diff * posC2.lots_amount * posC2.contract_size * conv) digits
    ∧ p'.open_bidask = posC2.open_bidask
    ∧ p'.is_buy = posC2.is_buy
    ∧ p'.lots_amount = posC2.lots_amount
    ∧ p'.contract_size = posC2.contract_size
    ∧ p'.commission = posC2.commission
    ∧ p'.swaps_sum = posC2.swaps_sum
    ∧ p'.get_gross_pl = p'.pl - posC2.commission + posC2.swaps_sum :=
  C1_update_bidask_floating_pl posC2 bidaskC2 emptyCache settingsC2 sC2 rfl

/-- C2 counterexample: at a concrete inverted-pair tick with an asymmetric
markup, the conversion price stored by `update_bidask` differs from the
value computed in the claim's order (reverse first, then markup): the code
applies the markup first and reverses afterwards. -/
theorem C2_reverse_then_markup_counterexample :
    (posC2.update_bidask bidaskC2 emptyCache settingsC2).profit_bidask.bid
      ≠ (profit_bidask_reverse_then_markup bidaskC2 sC2).bid := by
  norm_num +decide [posC2, bidaskC2, sC2, settingsC2, emptyCache,
    profit_bidask_reverse_then_markup, MicroEnginePosition.update_bidask,
    MicroEnginePosition.update_bidask_quotes, MicroEnginePosition.with_recomputed_pl,
    MicroEngineBidask.reverse, MicroEngineBidask.get_bid_ask_with_markup,
    TradingGroupInstrumentSettings.calculate_bidask, mapLookup,
    MicroEngineBidask.create_blank, MicroEngineBidask.get_open_price,
    MicroEngineBidask.get_close_price]

/-- C2 (amended): when an incoming subscribed tick is the inverse of the
needed conversion (incoming base equals the position's collateral, incoming
quote equals the position's quote), `update_bidask` derives `profit_bidask`
by first applying the markup/spread settings of the incoming instrument to
the incoming bidask and then taking `.reverse()` of the marked-up price. -/
theorem C2_profit_bidask_markup_then_reverse (p : MicroEnginePosition)
    (bidask : MicroEngineBidask) (cache : MicroEngineBidAskCache)
    (settings : MicroEngineTradingGroupSettings)
    (s : TradingGroupInstrumentSettings)
    (h : mapLookup settings.instruments bidask.id = some s)
    (hsub : bidask.id ∈ p.profit_price_assets_subscriptions)
    (hbase : bidask.base = p.collateral) (hquote : bidask.quote = p.quote) :
    (p.update_bidask bidask cache settings).profit_bidask =
      ({ bidask with bid := (s.calculate_bidask bidask).1,
                     ask := (s.calculate_bidask bidask).2 }).reverse := by
  unfold MicroEnginePosition.update_bidask
  rw [h]
  unfold MicroEnginePosition.with_recomputed_pl
  dsimp only
  unfold MicroEnginePosition.update_bidask_quotes
  by_cases h1 : p.asset_pair = bidask.id <;>
    simp [h1, hsub, hbase, hquote, h]

/-- C2 witness: the markup-then-reverse law evaluated at the concrete
USDCAD tick of the counterexample. -/
theorem C2_profit_bidask_markup_then_reverse_witness :
    (posC2.update_bidask bidaskC2 emptyCache settingsC2).profit_bidask =
      ({ bidaskC2 with bid := (sC2.calculate_bidask bidaskC2).1,
                       ask := (sC2.calculate_bidask bidaskC2).2 }).reverse :=
  C2_profit_bidask_markup_then_reverse posC2 bidaskC2 emptyCache settingsC2 sC2
    rfl (by decide) rfl rfl

/-- C3: after `recalculate_account_data`, margin is the sum of the
per-instrument margins, equity is balance plus the summed gross PnL, free
margin is equity minus margin, margin level is 0 when margin is below 1e-5
and equity over margin times 100 otherwise, and the returned update record
carries exactly these recomputed values. -/
theorem C3_recalculate_account_totals (account : MicroEngineAccount)
    (ps : List MicroEnginePosition)
    (settings : MicroEngineTradingGroupSettings) :
    let r := account.recalculate_account_data ps settings
    let assets := (ps.map (fun p => p.asset_pair)).dedup
    let margin_sum := (assets.map
      (fun a => (instrumentCalc ps account settings.hedge_coef settings a).1)).sum
    let gross_sum := (assets.map
      (fun a => (instrumentCalc ps account settings.hedge_coef settings a).2)).sum
    r.1.margin = margin_sum
    ∧ r.1.equity = account.balance + gross_sum
    ∧ r.1.free_margin = r.1.equity - r.1.margin
    ∧ r.1.margin_level =
        (if r.1.margin < 1 / 100000 then 0 else r.1.equity / r.1.margin * 100)
    ∧ r.2 = { account_id := account.id, margin := r.1.margin, equity := r.1.equity,
              free_margin := r.1.free_margin, margin_level := r.1.margin_level,
              total_gross := gross_sum } := by
  dsimp only
  unfold MicroEngineAccount.recalculate_account_data
  unfold MicroEngineAccount.calculate_margin_and_gross_pl
  rw [foldl_marginGrossStep]
  simp

/-- C4: the spread clamps reproduce the spec's concrete scenarios S4 and
S5 — `calculate_max_spread` on raw (1.23414, 1.23434) with max spread
0.00010 and 5 digits returns (1.23419, 1.23429), and `calculate_min_spread`
on raw (1.23434, 1.23437) with min spread 0.00010 and 5 digits returns
(1.23430, 1.23440): the clamp truncates the excess/deficit to 5 decimals,
moves half onto each side, and puts the extra pip on the bid side for the
odd deficit. (Prices are modelled as exact rationals.) -/
theorem C4_spread_clamp_examples :
    calculate_max_spread (123414/100000) (123434/100000) (10/100000) 5
      = (123419/100000, 123429/100000)
  ∧ calculate_min_spread (123434/100000) (123437/100000) (10/100000) 5
      = (123430/100000, 123440/100000) := by
  constructor <;>
    norm_num [calculate_max_spread, calculate_min_spread, calculate_spread,
      round_dp_trunc, truncTowardZero]

/-- C5 counterexample: a live position whose quote (CAD) differs from its
collateral (USD) still gets an empty subscription set, because the
conversion resolved through a directly stored (CAD, USD) price — the
insertion succeeds and the stored set is empty although quote and
collateral differ, contradicting the claimed equivalence. -/
theorem C5_subscriptions_counterexample :
    (engC5x.insert_or_update_position posC5x).2
      = Except.ok { account_id := "acc1", margin := 0, equity := 0,
                    free_margin := 0, margin_level := 0, total_gross := 0 }
    ∧ (mapLookup ((engC5x.insert_or_update_position posC5x).1).positions_cache.positions
        "pos1").map (fun q => q.profit_price_assets_subscriptions) = some []
    ∧ posC5x.quote ≠ posC5x.collateral := by
  refine ⟨?_, ?_, by decide⟩ <;>
    norm_num +decide [engC5x, posC5x, posC10a, cacheC5x, bidCADUSD, settingsC5x,
      accC5x, engPositionsEmpty, MicroEngine.insert_or_update_position,
      MicroEngineBidAskCache.get_price_with_source,
      MicroEngineBidAskCache.get_base_quote, MicroEngineBidAskCache.get_quote_base,
      MicroEnginePositionCache.add_position, PositionsCacheIndex.add_index,
      MicroEngineAccountCache.recalculate_account_data,
      TradingSettingsCache.resolve_by_account,
      MicroEnginePositionCache.get_account_positions,
      MicroEngineAccount.recalculate_account_data,
      MicroEngineAccount.calculate_margin_and_gross_pl, marginGrossStep,
      calculate_specific_instrument_margin_and_gross_pl,
      MicroEnginePosition.get_gross_pl, MicroEngineBidask.create_blank,
      mapLookup, mapInsert, setInsert, List.filterMap_cons, List.foldl_cons,
      List.dedup_cons_of_not_mem, List.dedup_nil, instrumentCalc]

/-- C5 (amended): a position stored through `insert_or_update_position`
carries exactly the source set returned by `get_price_with_source(quote,
collateral)` at insert time (empty when no sources are reported), and that
set is empty if and only if quote equals collateral or the lookup resolved
through a directly stored (quote, collateral) price; reversed and cross
resolutions yield a nonempty set. -/
theorem C5_subscriptions_from_source_lookup (e : MicroEngine)
    (p : MicroEnginePosition) (pp : MicroEngineBidask)
    (sources : Option (List String))
    (h : e.bidask_cache.get_price_with_source p.quote p.collateral
      = some (pp, sources)) :
    (mapLookup ((e.insert_or_update_position p).1).positions_cache.positions p.id
      = some { p with profit_price_assets_subscriptions := sources.getD [] })
    ∧ (sources.getD [] = [] ↔
        (p.quote = p.collateral
          ∨ (e.bidask_cache.get_base_quote p.quote p.collateral).isSome)) := by
  constructor
  · have hfix : (e.insert_or_update_position p).1.positions_cache
        = e.positions_cache.add_position
            { p with profit_price_assets_subscriptions := sources.getD [] } := by
      unfold MicroEngine.insert_or_update_position
      rw [h]
      dsimp only
      split <;> rfl
    rw [hfix]
    unfold MicroEnginePositionCache.add_position
    dsimp only
    exact mapLookup_mapInsert_self _ _ _
  · unfold MicroEngineBidAskCache.get_price_with_source at h
    by_cases hqc : p.quote = p.collateral
    · rw [if_pos hqc] at h
      obtain ⟨rfl⟩ : sources = none := by cases h; rfl
      simp [hqc]
    · rw [if_neg hqc] at h
      rcases hbq : e.bidask_cache.get_base_quote p.quote p.collateral with _ | d
      · rw [hbq] at h
        rcases hqb : e.bidask_cache.get_quote_base p.quote p.collateral with _ | r
        · rw [hqb] at h
          rcases hcr : e.bidask_cache.crossWithSource p.quote p.collateral
            with _ | ⟨c, l, rr⟩
          · rw [hcr] at h
            cases h
          · rw [hcr] at h
            obtain ⟨rfl⟩ : sources = some [l, rr] := by cases h; rfl
            simp [hqc, hbq]
        · rw [hqb] at h
          obtain ⟨rfl⟩ : sources = some [r.id] := by cases h; rfl
          simp [hqc, hbq]
      · rw [hbq] at h
        obtain ⟨rfl⟩ : sources = none := by cases h; rfl
        simp [hqc, hbq]

/-- C5 witness: the subscription law evaluated on a concrete engine whose
CAD-to-USD conversion resolves through the reversed USDCAD entry — the
stored subscription set is the singleton of the reversed leg id. -/
theorem C5_subscriptions_from_source_lookup_witness :
    (mapLookup ((engC5.insert_or_update_position posC5).1).positions_cache.positions
        posC5.id
      = some { posC5 with
          profit_price_assets_subscriptions :=
            (some ["USDCAD"] : Option (List String)).getD [] })
    ∧ ((some ["USDCAD"] : Option (List String)).getD [] = [] ↔
        (posC5.quote = posC5.collateral
          ∨ (engC5.bidask_cache.get_base_quote posC5.quote posC5.collateral).isSome)) :=
  C5_subscriptions_from_source_lookup engC5 posC5 bidUSDCAD.reverse
    (some ["USDCAD"]) rfl

/-- C6: a call to `recalculate_accordint_to_updates` made while the dirty
set is empty returns (none, none), and two successive calls with no
intervening `handle_new_price` leave the second returning (none, none). -/
theorem C6_recalculate_idempotent (e : MicroEngine) :
    (e.updated_assets = [] → e.recalculate_accordint_to_updates.2 = (none, none))
    ∧ e.recalculate_accordint_to_updates.1.recalculate_accordint_to_updates.2
        = (none, none) := by
  refine ⟨fun h => ?_, ?_⟩
  · rw [recalc_of_empty e h]
  · rw [recalc_of_empty _ (recalc_clears_dirty e)]

/-- C6 witness: both conclusions evaluated at a concrete engine with an
empty dirty set. -/
theorem C6_recalculate_idempotent_witness :
    engEmpty.recalculate_accordint_to_updates.2 = (none, none)
    ∧ engEmpty.recalculate_accordint_to_updates.1.recalculate_accordint_to_updates.2
        = (none, none) :=
  ⟨(C6_recalculate_idempotent engEmpty).1 rfl,
   (C6_recalculate_idempotent engEmpty).2⟩

/-- C7: `get_price` returns the blank identity when base equals quote;
otherwise the stored direct (base, quote) price when present; otherwise,
when a (quote, base) entry exists, its reverse with bid set to one over the
stored ask, ask set to one over the stored bid, and base/quote swapped;
otherwise the cross-matrix solution (which is none when the cross cannot
resolve). -/
theorem C7_get_price_resolution (cache : MicroEngineBidAskCache)
    (base quote : String) :
    (base = quote →
      cache.get_price base quote = some MicroEngineBidask.create_blank)
    ∧ (base ≠ quote → ∀ d, cache.get_base_quote base quote = some d →
        cache.get_price base quote = some d)
    ∧ (base ≠ quote → cache.get_base_quote base quote = none →
        ∀ r, cache.get_quote_base base quote = some r →
        cache.get_price base quote = some
          { id := "REVERSE-" ++ r.id, bid := 1 / r.ask, ask := 1 / r.bid,
            base := r.quote, quote := r.base })
    ∧ (base ≠ quote → cache.get_base_quote base quote = none →
        cache.get_quote_base base quote = none →
        cache.get_price base quote = cache.crossNoSource base quote) := by
  refine ⟨fun h => ?_, fun h d hd => ?_, fun h h1 r hr => ?_, fun h h1 h2 => ?_⟩ <;>
    simp [MicroEngineBidAskCache.get_price, MicroEngineBidask.reverse, *]

/-- C7 witness: the four resolution branches evaluated on a concrete cache
holding exactly one EURUSD price. -/
theorem C7_get_price_resolution_witness :
    cacheDirect.get_price "USD" "USD" = some MicroEngineBidask.create_blank
    ∧ cacheDirect.get_price "EUR" "USD" = some bidEURUSD
    ∧ cacheDirect.get_price "USD" "EUR" = some
        { id := "REVERSE-" ++ bidEURUSD.id, bid := 1 / bidEURUSD.ask,
          ask := 1 / bidEURUSD.bid, base := bidEURUSD.quote,
          quote := bidEURUSD.base }
    ∧ cacheDirect.get_price "AAA" "BBB" = cacheDirect.crossNoSource "AAA" "BBB" :=
  ⟨(C7_get_price_resolution cacheDirect "USD" "USD").1 rfl,
   (C7_get_price_resolution cacheDirect "EUR" "USD").2.1 (by decide) bidEURUSD rfl,
   (C7_get_price_resolution cacheDirect "USD" "EUR").2.2.1 (by decide) rfl
     bidEURUSD rfl,
   (C7_get_price_resolution cacheDirect "AAA" "BBB").2.2.2 (by decide) rfl rfl⟩

/-- C8 counterexample: an account holding one position with pl 5 on an
instrument its trading group does not configure — after recalculation,
equity minus balance is 0 while the summed gross PnL over all the
account's positions is 5. -/
theorem C8_equity_gross_counterexample :
    (accC8.recalculate_account_data [posC8] settingsC8).1.equity - accC8.balance
      ≠ ([posC8].map MicroEnginePosition.get_gross_pl).sum := by
  norm_num +decide [accC8, posC8, posC10a, settingsC8,
    MicroEngineAccount.recalculate_account_data,
    MicroEngineAccount.calculate_margin_and_gross_pl, marginGrossStep,
    MicroEnginePosition.get_gross_pl, mapLookup, List.filterMap_cons,
    List.foldl_cons, List.dedup_cons_of_not_mem, List.dedup_nil, instrumentCalc]

/-- C8 (amended): after recalculation, equity minus balance equals the sum
of `get_gross_pl()` over the account's positions whose asset pair has an
instrument-settings entry in the account's trading group; positions of
unconfigured instruments are silently skipped. -/
theorem C8_equity_minus_balance (account : MicroEngineAccount)
    (ps : List MicroEnginePosition)
    (settings : MicroEngineTradingGroupSettings) :
    (account.recalculate_account_data ps settings).1.equity - account.balance
    = ((ps.filter (fun p =>
          (mapLookup settings.instruments p.asset_pair).isSome)).map
        MicroEnginePosition.get_gross_pl).sum := by
  unfold MicroEngineAccount.recalculate_account_data
  unfold MicroEngineAccount.calculate_margin_and_gross_pl
  rw [foldl_marginGrossStep]
  dsimp only
  rw [zero_add, add_sub_cancel_left]
  have hterm : ∀ a ∈ (ps.map (fun p => p.asset_pair)).dedup,
      (instrumentCalc ps account settings.hedge_coef settings a).2
      = (if (mapLookup settings.instruments a).isSome then
          ((ps.filter (fun p => p.asset_pair = a)).map
            MicroEnginePosition.get_gross_pl).sum else 0) := by
    intro a _
    rcases hl : mapLookup settings.instruments a with _ | t <;>
      simp [instrumentCalc, hl, specific_gross]
  rw [List.map_congr_left hterm]
  simpa using sum_fiberwise ps MicroEnginePosition.get_gross_pl
    (fun a => (mapLookup settings.instruments a).isSome)
    ((ps.map (fun p => p.asset_pair)).dedup)
    (List.nodup_dedup _)
    (fun p hp => List.mem_dedup.mpr (List.mem_map_of_mem _ hp))

/-- C9 counterexample: two reversals do not return the record as a whole —
the id of a doubly reversed EURUSD price is REVERSE-REVERSE-EURUSD, not
EURUSD. -/
theorem C9_reverse_involution_counterexample :
    ({ id := "EURUSD", bid := 2, ask := 4, base := "EUR", quote := "USD" } :
        MicroEngineBidask).reverse.reverse ≠
      { id := "EURUSD", bid := 2, ask := 4, base := "EUR", quote := "USD" } := by
  intro h
  have h2 := congrArg MicroEngineBidask.id h
  simp [MicroEngineBidask.reverse] at h2

/-- C9 (amended): for a price with non-zero bid and ask, two reversals
restore bid, ask, base and quote, but the id gains a REVERSE- prefix at
each reversal, so the record as a whole does not return to the original. -/
theorem C9_reverse_involution_fields (x : MicroEngineBidask)
    (hbid : x.bid ≠ 0) (hask : x.ask ≠ 0) :
    x.reverse.reverse.bid = x.bid ∧ x.reverse.reverse.ask = x.ask
    ∧ x.reverse.reverse.base = x.base ∧ x.reverse.reverse.quote = x.quote
    ∧ x.reverse.reverse.id = "REVERSE-" ++ ("REVERSE-" ++ x.id) := by
  simp [MicroEngineBidask.reverse, one_div_one_div]

/-- C9 witness: the field-level involution evaluated at a concrete EURUSD
price with bid 1 and ask 2. -/
theorem C9_reverse_involution_fields_witness :
    ({ id := "EURUSD", bid := 1, ask := 2, base := "EUR", quote := "USD" } :
        MicroEngineBidask).reverse.reverse.bid = 1
    ∧ ({ id := "EURUSD", bid := 1, ask := 2, base := "EUR", quote := "USD" } :
        MicroEngineBidask).reverse.reverse.ask = 2
    ∧ ({ id := "EURUSD", bid := 1, ask := 2, base := "EUR", quote := "USD" } :
        MicroEngineBidask).reverse.reverse.base = "EUR"
    ∧ ({ id := "EURUSD", bid := 1, ask := 2, base := "EUR", quote := "USD" } :
        MicroEngineBidask).reverse.reverse.quote = "USD"
    ∧ ({ id := "EURUSD", bid := 1, ask := 2, base := "EUR", quote := "USD" } :
        MicroEngineBidask).reverse.reverse.id
        = "REVERSE-" ++ ("REVERSE-" ++ "EURUSD") :=
  C9_reverse_involution_fields
    { id := "EURUSD", bid := 1, ask := 2, base := "EUR", quote := "USD" }
    one_ne_zero two_ne_zero

/-- C10: when `insert_or_update_position` fails with AccountNotFound (the
account has no settings mapping or no account record), the position has
nonetheless been inserted into the position map and all four inverted
indices, so the engine state is mutated despite the error; only the
ProfitPriceNotFond failure leaves the caches unchanged. -/
theorem C10_insert_error_mutation (e : MicroEngine) (p : MicroEnginePosition) :
    ((e.insert_or_update_position p).2
        = Except.error MicroEngineError.ProfitPriceNotFond →
      (e.insert_or_update_position p).1 = e)
    ∧ ((e.insert_or_update_position p).2
        = Except.error MicroEngineError.AccountNotFound →
      ∀ pp sources,
        e.bidask_cache.get_price_with_source p.quote p.collateral
          = some (pp, sources) →
        (mapLookup ((e.insert_or_update_position p).1).positions_cache.positions p.id
            = some { p with profit_price_assets_subscriptions := sources.getD [] })
        ∧ p.id ∈ (mapLookup
            ((e.insert_or_update_position p).1).positions_cache.indexes.trader_id_index
            p.trader_id).getD []
        ∧ p.id ∈ (mapLookup
            ((e.insert_or_update_position p).1).positions_cache.indexes.account_id_index
            p.account_id).getD []
        ∧ p.id ∈ (mapLookup
            ((e.insert_or_update_position p).1).positions_cache.indexes.asset_pair_index
            p.asset_pair).getD []
        ∧ ∀ a ∈ sources.getD [],
            p.id ∈ (mapLookup
              ((e.insert_or_update_position p).1).positions_cache.indexes.profit_price_subscription_indexes
              a).getD []) := by
  rcases hs : e.bidask_cache.get_price_with_source p.quote p.collateral
    with _ | ⟨pp0, sources0⟩
  · constructor
    · intro _
      simp [MicroEngine.insert_or_update_position, hs]
    · intro habs
      simp [MicroEngine.insert_or_update_position, hs] at habs
  · constructor
    · intro habs
      unfold MicroEngine.insert_or_update_position at habs
      rw [hs] at habs
      dsimp only at habs
      split at habs <;> simp_all
    · intro _ pp sources hsrc
      obtain ⟨rfl, rfl⟩ : pp0 = pp ∧ sources0 = sources := by
        constructor <;> (cases hsrc; rfl)
      have hfix : (e.insert_or_update_position p).1.positions_cache
          = e.positions_cache.add_position
              { p with profit_price_assets_subscriptions := sources0.getD [] } := by
        unfold MicroEngine.insert_or_update_position
        rw [hs]
        dsimp only
        split <;> rfl
      rw [hfix]
      unfold MicroEnginePositionCache.add_position PositionsCacheIndex.add_index
      dsimp only
      refine ⟨mapLookup_mapInsert_self _ _ _, ?_, ?_, ?_, ?_⟩
      · rw [mapLookup_mapInsert_self]
        exact mem_setInsert_self _ _
      · rw [mapLookup_mapInsert_self]
        exact mem_setInsert_self _ _
      · rw [mapLookup_mapInsert_self]
        exact mem_setInsert_self _ _
      · intro a ha
        exact profit_fold_mem p.id (sources0.getD []) a _ (Or.inl ha)

/-- C10 witness: on a fully empty engine, inserting a CAD-quoted position
fails with ProfitPriceNotFond leaving the engine unchanged, while
inserting a USD-quoted position fails with AccountNotFound yet stores the
position in the map and the indices. -/
theorem C10_insert_error_mutation_witness :
    ((engEmpty.insert_or_update_position posC10b).1 = engEmpty)
    ∧ ((mapLookup ((engEmpty.insert_or_update_position posC10a).1).positions_cache.positions
          posC10a.id
        = some { posC10a with
            profit_price_assets_subscriptions :=
              (none : Option (List String)).getD [] })
      ∧ posC10a.id ∈ (mapLookup
          ((engEmpty.insert_or_update_position posC10a).1).positions_cache.indexes.trader_id_index
          posC10a.trader_id).getD []
      ∧ posC10a.id ∈ (mapLookup
          ((engEmpty.insert_or_update_position posC10a).1).positions_cache.indexes.account_id_index
          posC10a.account_id).getD []
      ∧ posC10a.id ∈ (mapLookup
          ((engEmpty.insert_or_update_position posC10a).1).positions_cache.indexes.asset_pair_index
          posC10a.asset_pair).getD []
      ∧ ∀ a ∈ (none : Option (List String)).getD [],
          posC10a.id ∈ (mapLookup
            ((engEmpty.insert_or_update_position posC10a).1).positions_cache.indexes.profit_price_subscription_indexes
            a).getD []) :=
  ⟨(C10_insert_error_mutation engEmpty posC10b).1 rfl,
   (C10_insert_error_mutation engEmpty posC10a).2 rfl
     MicroEngineBidask.create_blank none rfl⟩
